import Mathlib

/-!
Verification development for the xsd-parser repository.

Part 1 models `src/generator/utils.rs` (documentation-comment extraction and
the serialization-annotation block).  Rust `&str` values are modelled as
`List Char`; Rust byte strings (`as_bytes`) as `List Nat` via an explicit
UTF-8 encoder, so that byte-level operations (`chunks(60)`, `str::from_utf8`)
are faithful.  Rust panics (`unwrap`) are modelled as `Option.none`.

Part 2 models `xsd-parser/src/parser/attribute.rs` (the attribute parser)
over an XML-node model.  Parts of the repository outside the visible slice
(the node adapter, the dispatcher, the simple-type parser) are modelled from
the spec and marked as such in their doc comments.
-/

namespace XsdGen

/-- UTF-8 encoding of one scalar value, byte list (faithful to Rust `str` bytes). -/
def utf8EncodeChar (c : Char) : List Nat :=
  let n := c.toNat
  if n < 0x80 then [n]
  else if n < 0x800 then
    [0xC0 + n / 64, 0x80 + n % 64]
  else if n < 0x10000 then
    [0xE0 + n / 4096, 0x80 + (n / 64) % 64, 0x80 + n % 64]
  else
    [0xF0 + n / 262144, 0x80 + (n / 4096) % 64, 0x80 + (n / 64) % 64, 0x80 + n % 64]

/-- The bytes of a string (Rust `s.as_bytes()` for a `&str` modelled as `List Char`). -/
def strBytes (s : List Char) : List Nat :=
  (s.map utf8EncodeChar).flatten

/-- Rust `s.len()` on a `&str`: its length in bytes. -/
def byteLen (s : List Char) : Nat :=
  (strBytes s).length

/-- Rust `char::is_whitespace` (the Unicode White_Space property). -/
def isRustWhitespace (c : Char) : Bool :=
  let n := c.toNat
  (0x09 ≤ n && n ≤ 0x0D) || n = 0x20 || n = 0x85 || n = 0xA0 || n = 0x1680 ||
  (0x2000 ≤ n && n ≤ 0x200A) || n = 0x2028 || n = 0x2029 || n = 0x202F ||
  n = 0x205F || n = 0x3000

/-- Rust `str::trim`: remove leading and trailing whitespace. -/
def trimStr (s : List Char) : List Char :=
  ((s.dropWhile isRustWhitespace).reverse.dropWhile isRustWhitespace).reverse

/-- Split a character list at every newline character (Rust `str::split('\n')`):
the resulting pieces do not contain the separator, and there is one more piece
than there are separators. -/
def splitNl : List Char → List (List Char)
  | [] => [[]]
  | c :: cs =>
    if c = '\n' then [] :: splitNl cs
    else
      match splitNl cs with
      | [] => [[c]]
      | p :: ps => (c :: p) :: ps

/-- Remove one trailing carriage return (part of Rust `str::lines`' `\r\n` handling). -/
def stripCr (l : List Char) : List Char :=
  if l.getLast? = some '\r' then l.dropLast else l

/-- Rust `str::lines`: split at `\n`, strip a `\r` preceding each `\n`, and do
not produce a final empty line when the string ends with a line terminator. -/
def rustLines (s : List Char) : List (List Char) :=
  let ps := splitNl s
  match ps.getLast? with
  | some last => (ps.dropLast.map stripCr) ++ (if last = [] then [] else [last])
  | none => []

/-- Worker for `chunksList`, structurally recursive on a fuel that bounds the
list length (each step removes at least one element when `n > 0`, so the fuel
is never exhausted on the intended calls). -/
def chunksFuel {α : Type} (n : Nat) : Nat → List α → List (List α)
  | _, [] => []
  | 0, _ :: _ => []
  | fuel + 1, x :: xs => ((x :: xs).take n) :: chunksFuel n fuel ((x :: xs).drop n)

/-- Rust `slice::chunks (n)` for `n > 0`: consecutive chunks of length `n`, the
last one possibly shorter.  (Rust panics on `n = 0`; the code only uses `n = 60`.) -/
def chunksList {α : Type} (n : Nat) (l : List α) : List (List α) :=
  if n = 0 then [] else chunksFuel n l.length l

/-- Is a byte a UTF-8 continuation byte (`0x80 ≤ b < 0xC0`)? -/
def isContByte (b : Nat) : Bool :=
  0x80 ≤ b && b < 0xC0

/-- Worker for `utf8Decode`: a byte-at-a-time UTF-8 decoder.  `pending` is the
number of continuation bytes still expected for the current multi-byte
sequence (0 when a lead byte is expected) and `acc` the partial scalar value.
A lead byte below `0x80` is an ASCII character; `0xC2`–`0xDF`, `0xE0`–`0xEF`
and `0xF0`–`0xF4` open 2-, 3- and 4-byte sequences; anything else in lead
position, a non-continuation byte inside a sequence, or a sequence cut off by
the end of the input (a chunk boundary inside a code point) is an error. -/
def utf8DecodeGo : List Nat → Nat → Nat → Option (List Char)
  | [], pending, _ => if pending = 0 then some [] else none
  | b :: rest, 0, _ =>
    if b < 0x80 then
      (utf8DecodeGo rest 0 0).map (fun cs => Char.ofNat b :: cs)
    else if 0xC2 ≤ b && b ≤ 0xDF then utf8DecodeGo rest 1 (b - 0xC0)
    else if 0xE0 ≤ b && b ≤ 0xEF then utf8DecodeGo rest 2 (b - 0xE0)
    else if 0xF0 ≤ b && b ≤ 0xF4 then utf8DecodeGo rest 3 (b - 0xF0)
    else none
  | b :: rest, pending + 1, acc =>
    if isContByte b then
      if pending = 0 then
        (utf8DecodeGo rest 0 0).map (fun cs => Char.ofNat (acc * 64 + (b - 0x80)) :: cs)
      else utf8DecodeGo rest pending (acc * 64 + (b - 0x80))
    else none

/-- UTF-8 decoding (Rust `str::from_utf8` modulo the exact overlong/surrogate
checks, which the claims never exercise): `none` models a decoding error, i.e.
an `Err` that the Rust code turns into a panic via `unwrap`.  A chunk boundary
falling inside a multi-byte sequence yields `none`. -/
def utf8Decode (l : List Nat) : Option (List Char) :=
  utf8DecodeGo l 0 0

/-- `split_comment_line` from `src/generator/utils.rs`: chunk the line's bytes
into runs of at most 60 bytes, render each as `"// " ++ chunk ++ "\n"`, and
concatenate.  `none` models the panic of `str::from_utf8(ch).unwrap()`. -/
def split_comment_line (s : List Char) : Option (List Char) :=
  ((chunksList 60 (strBytes s)).mapM
      (fun ch => (utf8Decode ch).map (fun cs => ("// ").data ++ cs ++ ['\n']))).map
    List.flatten

/-- The trimmed lines of an optional documentation string
(`doc.unwrap_or("").lines().map(|s| s.trim())` in both comment helpers). -/
def trimmedLines (doc : Option (List Char)) : List (List Char) :=
  (rustLines (doc.getD [])).map trimStr

/-- `get_structure_comment` from `src/generator/utils.rs`: keep trimmed lines of
byte length `> 2`, wrap each with `split_comment_line`, concatenate. -/
def get_structure_comment (doc : Option (List Char)) : Option (List Char) :=
  (((trimmedLines doc).filter (fun s => byteLen s > 2)).mapM split_comment_line).map
    (fun ls => ls.foldl (fun x y => x ++ y) [])

/-- `get_field_comment` from `src/generator/utils.rs`: keep trimmed lines of
byte length `> 1`, render each as `"// " ++ line ++ "  "`, concatenate. -/
def get_field_comment (doc : Option (List Char)) : List Char :=
  (((trimmedLines doc).filter (fun s => byteLen s > 1)).map
      (fun s => ("// ").data ++ s ++ ("  ").data)).foldl
    (fun x y => x ++ y) []

/-- `yaserde_derive` from `src/generator/utils.rs`.  The Rust source writes the
literal with `\`-newline continuations, which strip the newline and the
following indentation, so the value is exactly this string. -/
def yaserde_derive : String :=
  "#[derive(Default, PartialEq, Debug, YaSerialize, YaDeserialize)]\n#[yaserde(\nprefix = \"unknown\",\nnamespace = \"unknown: unknown\"\n)\n"

/-- A string consists of ASCII characters only. -/
@[reducible] def allAscii (s : List Char) : Prop :=
  ∀ c ∈ s, c.toNat < 128

/-- The intended result of `split_comment_line` on an ASCII line: each 60-byte
chunk of the line's bytes becomes one `"// " ++ chunk ++ "\n"` physical line. -/
def wrapSpec (s : List Char) : List Char :=
  ((chunksList 60 (strBytes s)).map
      (fun ch => ("// ").data ++ ch.map Char.ofNat ++ ['\n'])).flatten

/-- A single documentation line of 130 characters (spec scenario 6). -/
def line130 : List Char :=
  List.replicate 130 'a'

end XsdGen

namespace XsdParser

/-- The facet kinds of XSD simple-type restrictions (spec data model: `Facet.facet_type`). -/
inductive FacetKind where
  | minInclusive
  | maxInclusive
  | minExclusive
  | maxExclusive
  | length
  | minLength
  | maxLength
  | pattern
  | whiteSpace
  | totalDigits
  | fractionDigits
  | enumeration
  deriving DecidableEq

/-- `ElementType` classification of XSD elements (`parser/xsd_elements.rs`,
outside the visible slice; constructors follow the spec's enumeration).
Enumeration facets are classified as `facetEl .enumeration`. -/
inductive ElementType where
  | schema
  | element
  | attributeDecl
  | simpleType
  | complexType
  | sequence
  | choice
  | restriction
  | extension
  | union
  | listEl
  | facetEl (kind : FacetKind)
  | annotationEl
  | documentationEl
  | attributeGroup
  | groupEl
  | anyEl
  | unknownEl
  deriving DecidableEq

/-- `UseType` of an attribute declaration (`parser/xsd_elements.rs`). -/
inductive UseType where
  | optional
  | prohibited
  | required
  deriving DecidableEq

/-- `TypeModifier` from `parser/types.rs` (spec data model). -/
inductive TypeModifier where
  | none
  | option
  | vec
  | array (size : Nat)
  | empty
  deriving DecidableEq

/-- `StructFieldSource` from `parser/types.rs` (spec data model). -/
inductive StructFieldSource where
  | element
  | attributeField
  | base
  | choice
  | text
  deriving DecidableEq

/-- A facet value from a restriction (spec data model: `Facet { facet_type, comment }`,
where the facet type carries the literal value of the `value` attribute). -/
structure Facet where
  facetType : FacetKind
  value : String
  comment : Option String
  deriving DecidableEq

/-- An XML element node, as the parser sees it through the node adapter: its
`ElementType` classification, its attributes, its children, its text content,
and whether it is an element node (`Node::is_element`). -/
inductive XmlNode where
  | mk (ty : ElementType) (attrs : List (String × String)) (children : List XmlNode)
      (text : String) (isElem : Bool)

/-- The `ElementType` classification of a node (`node.xsd_type()`). -/
def XmlNode.ty : XmlNode → ElementType
  | .mk t _ _ _ _ => t

/-- The attributes of a node. -/
def XmlNode.attrs : XmlNode → List (String × String)
  | .mk _ a _ _ _ => a

/-- The child nodes of a node (`node.children()`). -/
def XmlNode.children : XmlNode → List XmlNode
  | .mk _ _ c _ _ => c

/-- The text content of a node. -/
def XmlNode.text : XmlNode → String
  | .mk _ _ _ t _ => t

/-- Whether the node is an element node (`node.is_element()`). -/
def XmlNode.isElem : XmlNode → Bool
  | .mk _ _ _ _ e => e

/-- Attribute lookup on a node (`node.attribute(name)`). -/
def lookupAttr (n : XmlNode) (key : String) : Option String :=
  n.attrs.lookup key

/-- `node.attr_name()`. -/
def attr_name (n : XmlNode) : Option String :=
  lookupAttr n "name"

/-- `node.attr_ref()`. -/
def attr_ref (n : XmlNode) : Option String :=
  lookupAttr n "ref"

/-- `node.attr_type()`. -/
def attr_type (n : XmlNode) : Option String :=
  lookupAttr n "type"

/-- `node.has_attribute(name)`. -/
def has_attribute (n : XmlNode) (key : String) : Bool :=
  (lookupAttr n key).isSome

/-- Modelled from the spec: `node.attr_use()` of the node adapter
(`parser/xsd_elements.rs`, outside the visible slice); the spec fixes the
default to `Optional` when the `use` attribute is absent. -/
def attr_use (n : XmlNode) : UseType :=
  match lookupAttr n "use" with
  | some "required" => .required
  | some "prohibited" => .prohibited
  | _ => .optional

/-- Modelled from the spec: `get_documentation` of `parser/utils.rs` (outside
the visible slice); the spec describes it as extracting the text of the
`annotation/documentation` children. -/
def get_documentation (n : XmlNode) : Option String :=
  match n.children.find? (fun c => c.ty == ElementType.annotationEl) with
  | some a => (a.children.find? (fun c => c.ty == ElementType.documentationEl)).map XmlNode.text
  | none => none

/-- The IR entity tree `RsEntity` from `parser/types.rs` (spec data model §3);
each constructor carries the key fields the spec lists for the variant. -/
inductive RsEntity where
  | structEnt (name : String) (comment : Option String) (fields : List RsEntity)
      (subtypes : List RsEntity) (attributeGroups : List RsEntity)
  | structField (name : String) (type_name : String) (comment : Option String)
      (subtypes : List RsEntity) (source : StructFieldSource)
      (type_modifiers : List TypeModifier)
  | tupleStruct (name : String) (type_name : String) (comment : Option String)
      (facets : List Facet) (subtypes : List RsEntity)
  | alias (name : String) (original : String) (comment : Option String)
      (subtypes : List RsEntity)
  | enumEnt (name : String) (type_name : String) (comment : Option String)
      (cases : List RsEntity) (subtypes : List RsEntity)
  | enumCase (name : String) (value : String) (comment : Option String)
  | importEnt (name : String) (location : String) (namespaceUri : String)

/-- `RsEntity::name()`. -/
def RsEntity.name : RsEntity → String
  | .structEnt n _ _ _ _ => n
  | .structField n _ _ _ _ _ => n
  | .tupleStruct n _ _ _ _ => n
  | .alias n _ _ _ => n
  | .enumEnt n _ _ _ _ => n
  | .enumCase n _ _ => n
  | .importEnt n _ _ => n

/-- `RsEntity::set_name(name)`. -/
def RsEntity.set_name : RsEntity → String → RsEntity
  | .structEnt _ c f s g, n => .structEnt n c f s g
  | .structField _ t c s src m, n => .structField n t c s src m
  | .tupleStruct _ t c f s, n => .tupleStruct n t c f s
  | .alias _ o c s, n => .alias n o c s
  | .enumEnt _ t c cs s, n => .enumEnt n t c cs s
  | .enumCase _ v c, n => .enumCase n v c
  | .importEnt _ l ns, n => .importEnt n l ns

/-- Failure outcomes of the parsing functions.  `panicErr` models a Rust panic
(`expect` / `unwrap` / `panic`); `malformedSchema` and `unsupportedConstruct`
are the error-result kinds the spec's §7 describes (the visible code never
produces them — it panics instead). -/
inductive ParseErr where
  | panicErr (msg : String)
  | malformedSchema (reason : String)
  | unsupportedConstruct (kind : String)

/-- The outcome of a parsing function: an entity, or a failure. -/
abbrev PResult (α : Type) : Type := Except ParseErr α

/-- Does a result carry a `MalformedSchema` error (as opposed to a panic or a
normal return)? -/
def isMalformedResult : PResult RsEntity → Bool
  | .error (.malformedSchema _) => true
  | _ => false

/-- The facets collected from the children of a restriction node (facet nodes
carry their literal in the `value` attribute). -/
def collectFacets (r : XmlNode) : List Facet :=
  r.children.filterMap
    (fun c =>
      match c.ty with
      | .facetEl k => some ⟨k, (lookupAttr c "value").getD "", get_documentation c⟩
      | _ => Option.none)

/-- The enumeration facets among the facets collected from a restriction node. -/
def enumFacets (r : XmlNode) : List Facet :=
  (collectFacets r).filter (fun f => f.facetType == FacetKind.enumeration)

/-- Modelled from the spec: the simple-type parser (`parser/simple_type.rs`,
outside the visible slice).  Spec §4.3: a restriction with one or more
enumeration facets yields an `Enum` over the base primitive; a restriction
with only non-enumeration facets yields a `TupleStruct` carrying those facets.
The spec's `list`/`union` branches are not needed by any claim and are mapped
to the spec's `UnsupportedConstruct` error. -/
def parse_simple_type (node _parent : XmlNode) : PResult RsEntity :=
  match (node.children.filter (fun c => c.ty == ElementType.restriction)).getLast? with
  | some r =>
    if (enumFacets r).isEmpty then
      .ok (.tupleStruct ((attr_name node).getD "") ((lookupAttr r "base").getD "")
        (get_documentation node) (collectFacets r) [])
    else
      .ok (.enumEnt ((attr_name node).getD "") ((lookupAttr r "base").getD "")
        (get_documentation node)
        ((enumFacets r).map (fun f => .enumCase f.value f.value f.comment)) [])
  | none => .error (.unsupportedConstruct "simpleType without restriction")

/-- Modelled from the spec: the `NodeParser` dispatcher (`parser/node_parser.rs`,
outside the visible slice).  Only the `SimpleType` branch is reachable from the
visible attribute parser; every other element type maps to the spec's
`UnsupportedConstruct` error. -/
def parse_node (node parent : XmlNode) : PResult RsEntity :=
  match node.ty with
  | .simpleType => parse_simple_type node parent
  | _ => .error (.unsupportedConstruct "element type not dispatched")

/-- `SUPPORTED_CONTENT_TYPES` from `parser/attribute.rs`. -/
def SUPPORTED_CONTENT_TYPES : List ElementType :=
  [ElementType.simpleType]

/-- `parse_global_attribute` from `parser/attribute.rs`: `ref` wins and yields a
self-alias; otherwise `name` is required (panic if absent), a `type` attribute
yields an alias, an inline simple type is parsed and renamed, and the fallback
is an empty struct. -/
def parse_global_attribute (node : XmlNode) : PResult RsEntity :=
  match attr_ref node with
  | some reference =>
    .ok (.alias reference reference (get_documentation node) [])
  | none =>
    match attr_name node with
    | none => .error (.panicErr "Name attribute required.")
    | some name =>
      match attr_type node with
      | some ty => .ok (.alias name ty (get_documentation node) [])
      | none =>
        match (node.children.filter
            (fun n => n.isElem && n.ty == ElementType.simpleType)).getLast? with
        | some content =>
          match parse_node content node with
          | .ok entity => .ok (entity.set_name name)
          | .error e => .error e
        | none => .ok (.structEnt name Option.none [] [] [])

/-- `node.attr_name().or_else(|| node.attr_ref())` from `parse_attribute`. -/
def attrNameOrRef (n : XmlNode) : Option String :=
  match attr_name n with
  | some s => some s
  | none => attr_ref n

/-- The `use`-to-modifier match of `parse_attribute` (its `type_modifier` local). -/
def useModifier (n : XmlNode) : TypeModifier :=
  match attr_use n with
  | .optional => .option
  | .prohibited => .empty
  | .required => .none

/-- `parse_attribute` from `parser/attribute.rs`.  A schema-root parent routes
to `parse_global_attribute`; otherwise the field name is `name` or else `ref`
(panic via `expect` when both are absent), and the field's single type
modifier comes from `use`.  With a `type` or `ref` attribute present the type
name is `type`, or else `ref`, or else the literal `"String"`; otherwise the
last supported content child (a simple type) is parsed, renamed to
`<name>Type` (panic when there is no such child), and stored as the single
subtype. -/
def parse_attribute (node parent : XmlNode) : PResult RsEntity :=
  if parent.ty = ElementType.schema then
    parse_global_attribute node
  else
    match attrNameOrRef node with
    | none => .error (.panicErr "All attributes have name or ref")
    | some name =>
      if has_attribute node "type" || has_attribute node "ref" then
        .ok (.structField name ((attr_type node).getD ((attr_ref node).getD "String"))
          (get_documentation node) [] .attributeField [useModifier node])
      else
        match (node.children.filter
            (fun n => SUPPORTED_CONTENT_TYPES.contains n.ty)).getLast? with
        | none => .error (.panicErr "Must have content if no type or ref attribute")
        | some content_node =>
          match parse_node content_node node with
          | .error e => .error e
          | .ok ft =>
            .ok (.structField name (ft.set_name (name ++ "Type")).name
              (get_documentation node) [ft.set_name (name ++ "Type")]
              .attributeField [useModifier node])

/-- Sample node: `<xs:attribute ref="xlink:href" use="optional"/>` (spec scenario 3). -/
def xlinkHrefAttr : XmlNode :=
  .mk .attributeDecl [("ref", "xlink:href"), ("use", "optional")] [] "" true

/-- Sample node: an enclosing `complexType` element, a non-schema parent. -/
def complexParent : XmlNode :=
  .mk .complexType [] [] "" true

/-- Sample node: a local attribute with neither `name` nor `ref`. -/
def anonLocalAttr : XmlNode :=
  .mk .attributeDecl [("use", "required")] [] "" true

/-- Sample node: a local attribute with a `name` and a `type`. -/
def typedLocalAttr : XmlNode :=
  .mk .attributeDecl [("name", "a"), ("type", "xs:int")] [] "" true

/-- Sample node: `<xs:attribute name="expectedContentTypes" type="xs:string"/>`
at the schema root (spec scenario 1). -/
def globalTypedAttr : XmlNode :=
  .mk .attributeDecl [("name", "expectedContentTypes"), ("type", "xs:string")] [] "" true

/-- Sample node: a global attribute carrying both a `ref` and a `type`. -/
def globalRefTypedAttr : XmlNode :=
  .mk .attributeDecl [("ref", "xlink:href"), ("type", "xs:string")] [] "" true

end XsdParser

namespace XsdParser

/-- Renaming an entity changes exactly its name. -/
theorem RsEntity.name_set_name (e : RsEntity) (s : String) : (e.set_name s).name = s := by
  cases e <;> rfl

/-- C3: a schema-root attribute with a `name`, a `type` and no `ref` yields an
alias from the name to the type, with empty subtypes. -/
theorem parse_global_attribute_typed_alias (n : XmlNode) (N T : String)
    (h1 : attr_ref n = Option.none) (h2 : attr_name n = some N)
    (h3 : attr_type n = some T) :
    parse_global_attribute n = .ok (.alias N T (get_documentation n) []) := by
  unfold parse_global_attribute
  rw [h1, h2, h3]

/-- C3 witness: the spec's scenario 1, `<xs:attribute name="expectedContentTypes"
type="xs:string"/>` at the schema root. -/
theorem parse_global_attribute_typed_alias_app :
    parse_global_attribute globalTypedAttr =
      .ok (.alias "expectedContentTypes" "xs:string" Option.none []) :=
  parse_global_attribute_typed_alias globalTypedAttr "expectedContentTypes" "xs:string"
    rfl rfl rfl

/-- C10: a schema-root attribute carrying a `ref` always yields a self-alias on
the referenced name, even when a `type` attribute is also present. -/
theorem parse_global_attribute_ref_self_alias (n : XmlNode) (r : String)
    (h : attr_ref n = some r) :
    parse_global_attribute n = .ok (.alias r r (get_documentation n) []) := by
  unfold parse_global_attribute
  rw [h]

/-- C10 witness: a global attribute with both `ref="xlink:href"` and
`type="xs:string"`; the `type` is ignored and the alias is a self-alias. -/
theorem parse_global_attribute_ref_self_alias_app :
    parse_global_attribute globalRefTypedAttr =
      .ok (.alias "xlink:href" "xlink:href" Option.none []) :=
  parse_global_attribute_ref_self_alias globalRefTypedAttr "xlink:href" rfl

/-- C5 (amended): a local attribute with neither `name` nor `ref` makes
`parse_attribute` panic (the `expect` message of the source), rather than
return a `MalformedSchema` error result. -/
theorem parse_attribute_missing_name_panics (n p : XmlNode)
    (hp : p.ty ≠ ElementType.schema) (h1 : attr_name n = Option.none)
    (h2 : attr_ref n = Option.none) :
    parse_attribute n p = .error (.panicErr "All attributes have name or ref") := by
  unfold parse_attribute
  rw [if_neg hp]
  have h3 : attrNameOrRef n = Option.none := by
    unfold attrNameOrRef
    rw [h1, h2]
  rw [h3]

/-- C5 counterexample: on a concrete nameless, refless local attribute the
parser's outcome is the panic, and it is not a `MalformedSchema` error result. -/
theorem parse_attribute_missing_name_not_malformed :
    parse_attribute anonLocalAttr complexParent =
      .error (.panicErr "All attributes have name or ref")
    ∧ isMalformedResult (parse_attribute anonLocalAttr complexParent) = false :=
  ⟨rfl, rfl⟩

/-- C5 witness: the amended statement applied to the concrete nameless node. -/
theorem parse_attribute_missing_name_panics_app :
    parse_attribute anonLocalAttr complexParent =
      .error (.panicErr "All attributes have name or ref") :=
  parse_attribute_missing_name_panics anonLocalAttr complexParent (by decide) rfl rfl

end XsdParser

namespace XsdParser

/-- C1: for a local attribute the field's type name comes from `type`, else from
`ref`; with neither, it is synthesized as `<name>Type` from the inline simple
type, which becomes the field's single subtype.  The last conjunct is the
spec's scenario 3: `<xs:attribute ref="xlink:href" use="optional"/>` inside a
complex type gives name and type name both `"xlink:href"`. -/
theorem parse_attribute_local_type_name :
    (∀ node parent nm t, parent.ty ≠ ElementType.schema →
      attrNameOrRef node = some nm → attr_type node = some t →
      parse_attribute node parent =
        .ok (.structField nm t (get_documentation node) [] .attributeField [useModifier node]))
    ∧ (∀ node parent nm r, parent.ty ≠ ElementType.schema →
      attrNameOrRef node = some nm → attr_type node = Option.none → attr_ref node = some r →
      parse_attribute node parent =
        .ok (.structField nm r (get_documentation node) [] .attributeField [useModifier node]))
    ∧ (∀ node parent nm c e, parent.ty ≠ ElementType.schema →
      attrNameOrRef node = some nm → attr_type node = Option.none →
      attr_ref node = Option.none →
      (node.children.filter (fun n => SUPPORTED_CONTENT_TYPES.contains n.ty)).getLast?
        = some c →
      parse_node c node = .ok e →
      parse_attribute node parent =
        .ok (.structField nm (nm ++ "Type") (get_documentation node)
          [e.set_name (nm ++ "Type")] .attributeField [useModifier node]))
    ∧ parse_attribute xlinkHrefAttr complexParent =
        .ok (.structField "xlink:href" "xlink:href" Option.none [] .attributeField
          [TypeModifier.option]) := by
  refine ⟨?_, ?_, ?_, rfl⟩
  · intro node parent nm t hp hnm ht
    have ht' : lookupAttr node "type" = some t := ht
    unfold parse_attribute
    rw [if_neg hp]
    simp only [hnm]
    have hb : (has_attribute node "type" || has_attribute node "ref") = true := by
      unfold has_attribute
      rw [ht']
      rfl
    rw [if_pos hb, ht]
    rfl
  · intro node parent nm r hp hnm ht hr
    have hr' : lookupAttr node "ref" = some r := hr
    unfold parse_attribute
    rw [if_neg hp]
    simp only [hnm]
    have hb : (has_attribute node "type" || has_attribute node "ref") = true := by
      have h0 : has_attribute node "ref" = true := by
        unfold has_attribute
        rw [hr']
        rfl
      rw [h0, Bool.or_true]
    rw [if_pos hb, ht, hr]
    rfl
  · intro node parent nm c e hp hnm ht hr hc he
    unfold parse_attribute
    rw [if_neg hp]
    simp only [hnm]
    have hb : (has_attribute node "type" || has_attribute node "ref") = false := by
      have h1 : has_attribute node "type" = false := by
        unfold has_attribute
        rw [show lookupAttr node "type" = Option.none from ht]
        rfl
      have h2 : has_attribute node "ref" = false := by
        unfold has_attribute
        rw [show lookupAttr node "ref" = Option.none from hr]
        rfl
      rw [h1, h2]
      rfl
    rw [if_neg (show ¬((has_attribute node "type" || has_attribute node "ref") = true)
      by rw [hb]; exact Bool.false_ne_true)]
    simp only [hc, he, RsEntity.name_set_name]

/-- C1 witness: the first conjunct applied to a concrete local attribute with a
`type` attribute. -/
theorem parse_attribute_local_type_name_app :
    parse_attribute typedLocalAttr complexParent =
      .ok (.structField "a" "xs:int" Option.none [] .attributeField [TypeModifier.option]) :=
  parse_attribute_local_type_name.1 typedLocalAttr complexParent "a" "xs:int"
    (by decide) rfl rfl

end XsdParser

namespace XsdParser

/-- C2: every successful local-attribute parse carries exactly one type
modifier, and it is the one derived from `use`: absent or `optional` give
`Option`, `required` gives `None`, `prohibited` gives `Empty`. -/
theorem parse_attribute_single_use_modifier :
    (∀ node parent e, parent.ty ≠ ElementType.schema →
      parse_attribute node parent = .ok e →
      ∃ nm t c st, e = .structField nm t c st .attributeField [useModifier node])
    ∧ (∀ node, lookupAttr node "use" = Option.none → useModifier node = .option)
    ∧ (∀ node, lookupAttr node "use" = some "optional" → useModifier node = .option)
    ∧ (∀ node, lookupAttr node "use" = some "required" → useModifier node = .none)
    ∧ (∀ node, lookupAttr node "use" = some "prohibited" → useModifier node = .empty) := by
  refine ⟨?_, ?_, ?_, ?_, ?_⟩
  · intro node parent e hp h
    unfold parse_attribute at h
    rw [if_neg hp] at h
    cases hno : attrNameOrRef node with
    | none =>
      rw [hno] at h
      exact nomatch h
    | some nm =>
      simp only [hno] at h
      by_cases hb : (has_attribute node "type" || has_attribute node "ref") = true
      · rw [if_pos hb] at h
        injection h with h1
        exact ⟨nm, _, _, _, h1.symm⟩
      · rw [if_neg hb] at h
        cases hc : (node.children.filter
            (fun n => SUPPORTED_CONTENT_TYPES.contains n.ty)).getLast? with
        | none =>
          rw [hc] at h
          exact nomatch h
        | some c =>
          simp only [hc] at h
          cases hpn : parse_node c node with
          | error err =>
            rw [hpn] at h
            exact nomatch h
          | ok ft =>
            simp only [hpn] at h
            injection h with h1
            exact ⟨nm, _, _, _, h1.symm⟩
  · intro node h
    unfold useModifier attr_use
    rw [h]
  · intro node h
    unfold useModifier attr_use
    rw [h]
    rfl
  · intro node h
    unfold useModifier attr_use
    rw [h]
    rfl
  · intro node h
    unfold useModifier attr_use
    rw [h]
    rfl

/-- C2 witness: the first conjunct applied to a concrete local attribute whose
`use` attribute is absent, so the single modifier is `Option`. -/
theorem parse_attribute_single_use_modifier_app :
    ∃ nm t c st,
      RsEntity.structField "a" "xs:int" Option.none [] StructFieldSource.attributeField
          [TypeModifier.option]
        = RsEntity.structField nm t c st StructFieldSource.attributeField
          [useModifier typedLocalAttr] :=
  parse_attribute_single_use_modifier.1 typedLocalAttr complexParent
    (RsEntity.structField "a" "xs:int" Option.none [] StructFieldSource.attributeField
      [TypeModifier.option])
    (by decide) rfl

end XsdParser

namespace XsdParser

/-- C4: a schema-root attribute with a `name`, no `type` and no `ref`, whose
inline simple type is a restriction with base `B` and no enumeration facets,
is promoted to a tuple struct renamed to the attribute's name, carrying the
restriction's base as type name and its collected facets. -/
theorem parse_global_attribute_inline_promotion (node st r : XmlNode) (N B : String)
    (h1 : attr_ref node = Option.none) (h2 : attr_name node = some N)
    (h3 : attr_type node = Option.none)
    (h4 : (node.children.filter
        (fun n => n.isElem && n.ty == ElementType.simpleType)).getLast? = some st)
    (h5 : st.ty = ElementType.simpleType)
    (h6 : (st.children.filter
        (fun c => c.ty == ElementType.restriction)).getLast? = some r)
    (h7 : lookupAttr r "base" = some B)
    (h8 : (enumFacets r).isEmpty = true) :
    parse_global_attribute node =
      .ok (.tupleStruct N B (get_documentation st) (collectFacets r) []) := by
  have hpn : parse_node st node =
      .ok (.tupleStruct ((attr_name st).getD "") B (get_documentation st)
        (collectFacets r) []) := by
    unfold parse_node
    rw [h5]
    unfold parse_simple_type
    simp only [h6]
    rw [if_pos h8, h7]
    rfl
  unfold parse_global_attribute
  rw [h1]
  simp only [h2, h3, h4, hpn]
  rfl

/-- Sample node: a `minLength` facet with value `"3"`. -/
def minLengthFacetNode : XmlNode :=
  .mk (.facetEl .minLength) [("value", "3")] [] "" true

/-- Sample node: the restriction `<xs:restriction base="xs:string"><xs:minLength
value="3"/></xs:restriction>`. -/
def contentTypeRestriction : XmlNode :=
  .mk .restriction [("base", "xs:string")] [minLengthFacetNode] "" true

/-- Sample node: the inline simple type wrapping `contentTypeRestriction`. -/
def contentTypeSimpleType : XmlNode :=
  .mk .simpleType [] [contentTypeRestriction] "" true

/-- Sample node: `<xs:attribute name="contentType">` with the inline simple type
(spec scenario 2, the repository's own unit test). -/
def contentTypeAttr : XmlNode :=
  .mk .attributeDecl [("name", "contentType")] [contentTypeSimpleType] "" true

/-- C4 witness: the spec's scenario 2 gives `TupleStruct { name: "contentType",
type_name: "xs:string", facets: [MinLength("3")] }`. -/
theorem parse_global_attribute_inline_promotion_app :
    parse_global_attribute contentTypeAttr =
      .ok (.tupleStruct "contentType" "xs:string" Option.none
        [⟨FacetKind.minLength, "3", Option.none⟩] []) :=
  parse_global_attribute_inline_promotion contentTypeAttr contentTypeSimpleType
    contentTypeRestriction "contentType" "xs:string" rfl rfl rfl rfl rfl rfl rfl rfl

end XsdParser

namespace XsdGen

/-- C8: the emitted annotation block uses `"unknown"` as the namespace prefix,
`"unknown: unknown"` as the namespace declaration, and derives `Default`,
`PartialEq`, `Debug`, `YaSerialize` and `YaDeserialize`. -/
theorem yaserde_derive_placeholders :
    ∃ u1 v1 u2 v2 u3 v3 : String,
      yaserde_derive = u1 ++ "prefix = \"unknown\"" ++ v1
      ∧ yaserde_derive = u2 ++ "namespace = \"unknown: unknown\"" ++ v2
      ∧ yaserde_derive
          = u3 ++ "derive(Default, PartialEq, Debug, YaSerialize, YaDeserialize)" ++ v3 := by
  refine ⟨"#[derive(Default, PartialEq, Debug, YaSerialize, YaDeserialize)]\n#[yaserde(\n",
    ",\nnamespace = \"unknown: unknown\"\n)\n",
    "#[derive(Default, PartialEq, Debug, YaSerialize, YaDeserialize)]\n#[yaserde(\nprefix = \"unknown\",\n",
    "\n)\n",
    "#[",
    "]\n#[yaserde(\nprefix = \"unknown\",\nnamespace = \"unknown: unknown\"\n)\n",
    by decide, by decide, by decide⟩

/-- C6 counterexample: the trimmed line `"ab"` has byte length 2, yet
`get_field_comment` keeps it, so field comments do not drop all lines of
length at most 2. -/
theorem comment_threshold_counterexample :
    XsdGen.byteLen (XsdGen.trimStr (("ab").data)) ≤ 2
    ∧ XsdGen.get_field_comment (some (("ab").data)) = ("// ab  ").data
    ∧ XsdGen.get_field_comment (some (("ab").data)) ≠ [] := by
  refine ⟨by decide, by decide, by decide⟩

end XsdGen

namespace XsdGen

/-- C6 (amended): both extractors trim each line first; `get_structure_comment`
then drops exactly the trimmed lines of byte length at most 2, while
`get_field_comment` drops exactly the trimmed lines of byte length at most 1
(a 2-character line is kept by the field extractor); only the remaining lines
contribute.  The concrete conjuncts exercise the two thresholds. -/
theorem comment_extraction_thresholds :
    (∀ doc, get_structure_comment doc =
      (((trimmedLines doc).filter (fun s => byteLen s > 2)).mapM split_comment_line).map
        (fun ls => ls.foldl (fun x y => x ++ y) []))
    ∧ (∀ doc, get_field_comment doc =
      (((trimmedLines doc).filter (fun s => byteLen s > 1)).map
          (fun s => ("// ").data ++ s ++ ("  ").data)).foldl (fun x y => x ++ y) [])
    ∧ get_structure_comment (some ((" ab ").data)) = some []
    ∧ get_field_comment (some ((" ab ").data)) = ("// ab  ").data
    ∧ get_field_comment (some ((" a ").data)) = []
    ∧ get_structure_comment (some (("abc").data)) = some (("// abc\n").data) := by
  refine ⟨fun doc => rfl, fun doc => rfl, by decide, by decide, by decide, by decide⟩

end XsdGen

namespace XsdGen

/-- An ASCII character encodes as its single code-point byte. -/
theorem utf8EncodeChar_ascii (c : Char) (h : c.toNat < 128) :
    utf8EncodeChar c = [c.toNat] := by
  simp only [utf8EncodeChar]
  rw [if_pos h]

/-- `strBytes` distributes over cons. -/
theorem strBytes_cons (c : Char) (s : List Char) :
    strBytes (c :: s) = utf8EncodeChar c ++ strBytes s := rfl

/-- The bytes of an ASCII string are exactly its code points. -/
theorem strBytes_ascii (s : List Char) (h : allAscii s) :
    strBytes s = s.map Char.toNat := by
  induction s with
  | nil => rfl
  | cons c cs ih =>
    rw [strBytes_cons, utf8EncodeChar_ascii c (h c (List.mem_cons_self c cs)),
      ih (fun x hx => h x (List.mem_cons_of_mem c hx)), List.map_cons]
    rfl

/-- Every byte of an ASCII string is below 128. -/
theorem mem_strBytes_ascii (s : List Char) (h : allAscii s) :
    ∀ b ∈ strBytes s, b < 128 := by
  intro b hb
  rw [strBytes_ascii s h] at hb
  obtain ⟨c, hc, rfl⟩ := List.mem_map.mp hb
  exact h c hc

/-- Every chunk produced by the fuelled worker has length at most `n` and draws
its elements from the input list. -/
theorem chunksFuel_sound {α : Type} (n : Nat) :
    ∀ (fuel : Nat) (l c : List α), c ∈ chunksFuel n fuel l →
      c.length ≤ n ∧ ∀ x ∈ c, x ∈ l := by
  intro fuel
  induction fuel with
  | zero =>
    intro l c hc
    cases l with
    | nil => exact absurd hc (List.not_mem_nil c)
    | cons x xs => exact absurd hc (List.not_mem_nil c)
  | succ fuel ih =>
    intro l c hc
    cases l with
    | nil => exact absurd hc (List.not_mem_nil c)
    | cons x xs =>
      rcases List.mem_cons.mp hc with h | h
      · subst h
        refine ⟨?_, fun y hy => List.mem_of_mem_take hy⟩
        rw [List.length_take]
        exact Nat.min_le_left _ _
      · obtain ⟨h1, h2⟩ := ih ((x :: xs).drop n) c h
        exact ⟨h1, fun y hy => List.mem_of_mem_drop (h2 y hy)⟩

/-- Every chunk of `chunksList n l` has length at most `n` and draws its
elements from `l`. -/
theorem chunksList_sound {α : Type} (n : Nat) (l c : List α)
    (hc : c ∈ chunksList n l) : c.length ≤ n ∧ ∀ x ∈ c, x ∈ l := by
  unfold chunksList at hc
  by_cases hn : n = 0
  · rw [if_pos hn] at hc
    exact absurd hc (List.not_mem_nil c)
  · rw [if_neg hn] at hc
    exact chunksFuel_sound n l.length l c hc

/-- Decoding a byte list that is entirely ASCII always succeeds, giving the
corresponding characters. -/
theorem utf8Decode_ascii (l : List Nat) (h : ∀ b ∈ l, b < 128) :
    utf8Decode l = some (l.map Char.ofNat) := by
  induction l with
  | nil => rfl
  | cons b rest ih =>
    have hb : b < 128 := h b (List.mem_cons_self b rest)
    show utf8DecodeGo (b :: rest) 0 0 = _
    rw [utf8DecodeGo]
    rw [if_pos hb]
    have ih2 : utf8DecodeGo rest 0 0 = some (rest.map Char.ofNat) :=
      ih (fun x hx => h x (List.mem_cons_of_mem b hx))
    rw [ih2]
    rfl

/-- A monadic map over `Option` succeeds pointwise when every element maps to
`some`. -/
theorem mapM_option_some {α β : Type} (f : α → Option β) (g : α → β) :
    ∀ (l : List α), (∀ a ∈ l, f a = some (g a)) → l.mapM f = some (l.map g) := by
  intro l
  induction l with
  | nil => intro _; rfl
  | cons a as ih =>
    intro h
    rw [List.mapM_cons, h a (List.mem_cons_self a as),
      ih (fun x hx => h x (List.mem_cons_of_mem a hx))]
    rfl

/-- On an ASCII line, `split_comment_line` never hits the decoding panic and
produces exactly the 60-byte wrapping. -/
theorem split_comment_line_ascii (s : List Char) (h : allAscii s) :
    split_comment_line s = some (wrapSpec s) := by
  have hall : ∀ ch ∈ chunksList 60 (strBytes s),
      (utf8Decode ch).map (fun cs => ("// ").data ++ cs ++ ['\n'])
        = some (("// ").data ++ ch.map Char.ofNat ++ ['\n']) := by
    intro ch hch
    have hsub := (chunksList_sound 60 (strBytes s) ch hch).2
    rw [utf8Decode_ascii ch (fun b hb => mem_strBytes_ascii s h b (hsub b hb))]
    rfl
  unfold split_comment_line wrapSpec
  rw [mapM_option_some _ _ _ hall]
  rfl

/-- Every element of every piece of `splitNl` comes from the split string. -/
theorem mem_splitNl (s : List Char) : ∀ p ∈ splitNl s, ∀ x ∈ p, x ∈ s := by
  induction s with
  | nil =>
    intro p hp x hx
    have h0 : p = [] := List.mem_singleton.mp hp
    subst h0
    exact absurd hx (List.not_mem_nil x)
  | cons c cs ih =>
    intro p hp x hx
    unfold splitNl at hp
    by_cases hc : c = '\n'
    · rw [if_pos hc] at hp
      rcases List.mem_cons.mp hp with h0 | hp2
      · subst h0
        exact absurd hx (List.not_mem_nil x)
      · exact List.mem_cons_of_mem c (ih p hp2 x hx)
    · rw [if_neg hc] at hp
      cases hsp : splitNl cs with
      | nil =>
        rw [hsp] at hp
        have h0 : p = [c] := List.mem_singleton.mp hp
        subst h0
        have h1 : x = c := List.mem_singleton.mp hx
        subst h1
        exact List.mem_cons_self x cs
      | cons q qs =>
        rw [hsp] at hp
        rcases List.mem_cons.mp hp with h0 | hp2
        · subst h0
          rcases List.mem_cons.mp hx with h1 | hx2
          · subst h1
            exact List.mem_cons_self x cs
          · refine List.mem_cons_of_mem c (ih q ?_ x hx2)
            rw [hsp]
            exact List.mem_cons_self q qs
        · refine List.mem_cons_of_mem c (ih p ?_ x hx)
          rw [hsp]
          exact List.mem_cons_of_mem q hp2

/-- `stripCr` only removes characters. -/
theorem mem_stripCr (l : List Char) (x : Char) (hx : x ∈ stripCr l) : x ∈ l := by
  unfold stripCr at hx
  by_cases h : l.getLast? = some '\r'
  · rw [if_pos h] at hx
    exact List.mem_of_mem_dropLast hx
  · rw [if_neg h] at hx
    exact hx

/-- Every character of every line of `rustLines` comes from the string. -/
theorem mem_rustLines (s : List Char) : ∀ p ∈ rustLines s, ∀ x ∈ p, x ∈ s := by
  intro p hp x hx
  simp only [rustLines] at hp
  cases hl : (splitNl s).getLast? with
  | none =>
    rw [hl] at hp
    exact absurd hp (List.not_mem_nil p)
  | some last =>
    simp only [hl] at hp
    rcases List.mem_append.mp hp with h | h
    · obtain ⟨q, hq, rfl⟩ := List.mem_map.mp h
      exact mem_splitNl s q (List.mem_of_mem_dropLast hq) x (mem_stripCr q x hx)
    · by_cases he : last = []
      · rw [if_pos he] at h
        exact absurd h (List.not_mem_nil p)
      · rw [if_neg he] at h
        have h0 : p = last := List.mem_singleton.mp h
        subst h0
        obtain ⟨hne, h1⟩ := List.mem_getLast?_eq_getLast (x := p) (by rw [hl]; exact rfl)
        exact mem_splitNl s p (h1 ▸ List.getLast_mem hne) x hx

/-- Dropping a prefix by a predicate only removes elements. -/
theorem mem_dropWhile {α : Type} (p : α → Bool) :
    ∀ (l : List α) (x : α), x ∈ l.dropWhile p → x ∈ l := by
  intro l
  induction l with
  | nil => intro x hx; exact hx
  | cons a as ih =>
    intro x hx
    rw [List.dropWhile_cons] at hx
    by_cases hpa : p a = true
    · rw [if_pos hpa] at hx
      exact List.mem_cons_of_mem a (ih x hx)
    · rw [if_neg hpa] at hx
      exact hx

/-- Trimming only removes characters. -/
theorem mem_trimStr (l : List Char) (x : Char) (hx : x ∈ trimStr l) : x ∈ l := by
  unfold trimStr at hx
  rw [List.mem_reverse] at hx
  have h1 := mem_dropWhile _ _ _ hx
  rw [List.mem_reverse] at h1
  exact mem_dropWhile _ _ _ h1

end XsdGen

namespace XsdGen

set_option maxRecDepth 8000 in
/-- C7: on an ASCII line, `get_structure_comment`'s wrapper chunks the line's
bytes into runs of at most 60, each emitted as one `"// " ++ chunk ++ "\n"`
physical line; on the concrete 130-character line the three chunks carry 60,
60 and 10 bytes of payload, and the structure comment is exactly the three
wrapped lines. -/
theorem split_comment_wrap_sixty :
    (∀ s, allAscii s → split_comment_line s = some (wrapSpec s))
    ∧ (∀ c ∈ chunksList 60 (strBytes line130), c.length ≤ 60)
    ∧ (chunksList 60 (strBytes line130)).map List.length = [60, 60, 10]
    ∧ get_structure_comment (some line130) =
        some ((("// ").data ++ List.replicate 60 'a' ++ ['\n'])
          ++ ((("// ").data ++ List.replicate 60 'a' ++ ['\n'])
          ++ ((("// ").data ++ List.replicate 10 'a' ++ ['\n']) ++ []))) := by
  refine ⟨split_comment_line_ascii, ?_, by decide, by decide⟩
  intro c hc
  exact (chunksList_sound 60 (strBytes line130) c hc).1

/-- C7 witness: the first conjunct applied to the concrete ASCII line `"hi"`. -/
theorem split_comment_wrap_sixty_app :
    allAscii (("hi").data)
    ∧ split_comment_line (("hi").data) = some (wrapSpec (("hi").data)) :=
  ⟨by decide, split_comment_wrap_sixty.1 (("hi").data) (by decide)⟩

/-- C9: on a purely ASCII documentation string, `get_structure_comment` returns
normally — the UTF-8 decoding failure inside the 60-byte chunking (modelled as
`Option.none`, the `unwrap` panic) is unreachable. -/
theorem get_structure_comment_ascii_no_panic (s : List Char) (h : allAscii s) :
    (get_structure_comment (some s)).isSome = true := by
  have hall : ∀ l ∈ (trimmedLines (some s)).filter (fun t => byteLen t > 2),
      split_comment_line l = some (wrapSpec l) := by
    intro l hl
    apply split_comment_line_ascii
    intro x hx
    have hl2 : l ∈ trimmedLines (some s) := List.mem_of_mem_filter hl
    unfold trimmedLines at hl2
    obtain ⟨q, hq, rfl⟩ := List.mem_map.mp hl2
    exact h x (mem_rustLines _ q hq x (mem_trimStr q x hx))
  unfold get_structure_comment
  rw [mapM_option_some _ _ _ hall]
  rfl

/-- C9 witness: the theorem applied to a concrete ASCII documentation string. -/
theorem get_structure_comment_ascii_no_panic_app :
    allAscii (("sample documentation text").data)
    ∧ (get_structure_comment (some (("sample documentation text").data))).isSome = true :=
  ⟨by decide,
    get_structure_comment_ascii_no_panic (("sample documentation text").data) (by decide)⟩

end XsdGen
